import Mathlib

/-!
Verification of the route-optimization core of RouteWise
(`src/utils/tsp-algorithms.ts`).

The TypeScript source is shallowly embedded below.  Stop indices are
JavaScript numbers and are modelled as `Int` (the Held–Karp solver uses the
sentinel `-1`, and route arrays may in principle carry it).  Finite edge
costs are `Int`; the `Infinity` initialisations of the best-candidate scans
are modelled by the two-constructor type `JsNum` whose `add`/`lt` mirror the
IEEE behaviour of `Infinity` for the operations the source performs.

Matrix access `matrix[i][j]` is modelled by `cellAt`, which yields the zero
cell when an index is out of range.  Every evaluation carried out in the
theorems below only exercises in-range accesses, where `cellAt` coincides
with the JavaScript semantics.
-/

/-- One cell of the distance matrix: `{duration, distance, cost?}` with
`duration` in seconds, `distance` in meters and an optional cost range. -/
structure Cell where
  duration : Int
  distance : Int
  cost : Option (Int × Int)
deriving DecidableEq, Repr

/-- The `DistanceMatrix` type of the source: a list of rows of cells. -/
abbrev DistanceMatrix := List (List Cell)

/-- The `OptimizationResult` record returned by every solver. -/
structure OptimizationResult where
  orderedStops : List String
  totalDuration : Int
  totalDistance : Int
  totalCost : Int × Int
deriving DecidableEq, Repr

/-- Read `l[i]` for a JavaScript (possibly negative) index. -/
def listGetI (l : List Cell) (i : Int) : Option Cell :=
  if i < 0 then none else l.get? i.toNat

/-- Read a row of the matrix. -/
def rowGetI (m : DistanceMatrix) (i : Int) : Option (List Cell) :=
  if i < 0 then none else m.get? i.toNat

/-- Access `matrix[i][j]`; out-of-range access is mapped to the zero cell
(the source would throw a `TypeError` there; no statement below depends on
an out-of-range read). -/
def cellAt (m : DistanceMatrix) (i j : Int) : Cell :=
  (listGetI ((rowGetI m i).getD []) j).getD ⟨0, 0, none⟩

/-- JavaScript number restricted to the values the solvers manipulate:
a finite integer or `Infinity`. -/
inductive JsNum where
  | fin (v : Int)
  | inf
deriving DecidableEq, Repr

/-- Addition: `Infinity + x = x + Infinity = Infinity`. -/
def JsNum.add : JsNum → JsNum → JsNum
  | .fin a, .fin b => .fin (a + b)
  | _, _ => .inf

/-- Strict comparison: every finite value is `< Infinity`,
and `Infinity < Infinity` is false. -/
def JsNum.lt : JsNum → JsNum → Bool
  | .fin a, .fin b => a < b
  | .fin _, .inf => true
  | .inf, _ => false

/-- Tri-state end constraint, `endIndex !== null && endIndex !== startIndex`
of the source. -/
def isDistinctEnd (endIndex : Option Int) (startIndex : Int) : Bool :=
  match endIndex with
  | some e => e != startIndex
  | none => false

/-- The stop appended after the permuted interior: `endIndex` when it is a
distinct fixed end, otherwise `startIndex` (the source's `null` branch and
its `endIndex === startIndex` branch have textually identical bodies, both
closing the tour at `startIndex`). -/
def closingTarget (endIndex : Option Int) (startIndex : Int) : Int :=
  match endIndex with
  | some e => if e != startIndex then e else startIndex
  | none => startIndex

/-- Consecutive pairs `(route[i], route[i+1])` of a route, the index range
of every metric loop in the source. -/
def routePairs : List Int → List (Int × Int)
  | a :: b :: rest => (a, b) :: routePairs (b :: rest)
  | _ => []

/-- `calculateTotalDistance(route, matrix)`: sum of directed edge durations
along consecutive positions (the source accumulates left to right; `Int`
addition makes the order irrelevant). -/
def calculateTotalDistance (route : List Int) (m : DistanceMatrix) : Int :=
  ((routePairs route).map (fun p => (cellAt m p.1 p.2).duration)).sum

/-- Missing cost information contributes `{min: 0, max: 0}`; the source's
`if (element.cost)` guard skips the addition, which is the same thing. -/
def costOrZero (c : Option (Int × Int)) : Int × Int :=
  c.getD (0, 0)

/-- One step of the metric fold of `calculateRouteMetrics`: accumulate
`(duration, distance, costMin, costMax)` of one consecutive edge. -/
def metricsStep (m : DistanceMatrix) (acc : Int × Int × Int × Int) (p : Int × Int) :
    Int × Int × Int × Int :=
  let e := cellAt m p.1 p.2
  let c := costOrZero e.cost
  (acc.1 + e.duration, acc.2.1 + e.distance, acc.2.2.1 + c.1, acc.2.2.2 + c.2)

/-- `Math.round(t / 60)` for an integer number of seconds `t`:
`⌊t/60 + 1/2⌋ = ⌊(t+30)/60⌋` (JavaScript rounds halves toward `+∞`). -/
def roundToMinutes (t : Int) : Int :=
  Int.fdiv (t + 30) 60

/-- `calculateRouteMetrics(route, matrix)`: fold the consecutive-edge cells
and convert the summed duration from seconds to whole minutes. -/
def calculateRouteMetrics (route : List Int) (m : DistanceMatrix) : OptimizationResult :=
  let acc := (routePairs route).foldl (metricsStep m) (0, 0, 0, 0)
  { orderedStops := route.map (fun i => toString i)
    totalDuration := roundToMinutes acc.1
    totalDistance := acc.2.1
    totalCost := (acc.2.2.1, acc.2.2.2) }

/-- All ways of picking one element out of a list, each with the remaining
list, in the order of the `for (let i = 0; ...)` loop of `permute`. -/
def selectEach : List Int → List (Int × List Int)
  | [] => []
  | x :: xs => (x, xs) :: (selectEach xs).map (fun p => (p.1, x :: p.2))

/-- Fuel-indexed permutation enumeration; `fuel = arr.length` suffices. -/
def permuteAux : Nat → List Int → List (List Int)
  | 0, _ => [[]]
  | fuel + 1, arr =>
    match arr with
    | [] => [[]]
    | _ :: _ => (selectEach arr).flatMap (fun p => (permuteAux fuel p.2).map (fun r => p.1 :: r))

/-- All permutations of `arr` in the enumeration order of the source's
recursive `permute` (first element varies slowest). -/
def permute (arr : List Int) : List (List Int) :=
  permuteAux arr.length arr

/-- Last element of a (nonempty) route. -/
def lastStop (l : List Int) : Int :=
  l.getLastD 0

/-- Scan of `bruteForceOptimal` over the permutation list: for each
permutation build `[start, ...permutation]`, append the closing stop `tgt`,
add the closing edge's duration, and keep the first candidate with strictly
minimal total duration (`distance < bestDistance` with `bestDistance`
starting at `Infinity`). -/
def bruteChoose (m : DistanceMatrix) (startIndex tgt : Int) :
    List (List Int) → List Int → JsNum → List Int
  | [], bestRoute, _ => bestRoute
  | perm :: rest, bestRoute, bestDistance =>
    let route := startIndex :: perm
    let d := calculateTotalDistance route m + (cellAt m (lastStop route) tgt).duration
    if JsNum.lt (.fin d) bestDistance then
      bruteChoose m startIndex tgt rest (route ++ [tgt]) (.fin d)
    else
      bruteChoose m startIndex tgt rest bestRoute bestDistance

/-- `bruteForceOptimal(matrix, startIndex, endIndex)`: enumerate every
permutation of the stops other than `startIndex` (a distinct `endIndex` is
NOT excluded from this set), close each candidate at `closingTarget`, keep
the minimum-duration one and fold its metrics. -/
def bruteForceOptimal (m : DistanceMatrix) (startIndex : Int) (endIndex : Option Int) :
    OptimizationResult :=
  calculateRouteMetrics
    (bruteChoose m startIndex (closingTarget endIndex startIndex)
      (permute (((List.range m.length).map Int.ofNat).filter (fun i => i != startIndex)))
      [] .inf)
    m

/-- Subsets of `arr` of the given size, in the enumeration order of the
source's recursive `generateSubsets` (elements keep the list order). -/
def generateSubsets : List Int → Nat → List (List Int)
  | _, 0 => [[]]
  | [], _ + 1 => []
  | x :: xs, k + 1 => ((generateSubsets xs k).map (fun s => x :: s)) ++ generateSubsets xs (k + 1)

/-- `getMask(cities)`: bitmask with bit `city` set for every listed city. -/
def getMask (cities : List Int) : Nat :=
  cities.foldl (fun mask c => mask ||| (1 <<< c.toNat)) 0

/-- String-keyed maps `"mask,city"` of the source, keyed here by the pair. -/
def mapSet {α : Type} (mp : Nat × Int → Option α) (k : Nat × Int) (v : α) :
    Nat × Int → Option α :=
  fun q => if q = k then some v else mp q

/-- `dp.get(key) || Infinity`: a missing entry is `Infinity`, and so is a
stored `0`, because `0` is falsy in JavaScript. -/
def jsOrInfinity (v : Option JsNum) : JsNum :=
  match v with
  | none => .inf
  | some x => if x = .fin 0 then .inf else x

/-- Base cases of the DP table: `dp[{c}][c] = matrix[start][c].duration` with
predecessor `start`, for every non-start city `c`. -/
def hkBase (m : DistanceMatrix) (startIndex : Int) (cities : List Int) :
    (Nat × Int → Option JsNum) × (Nat × Int → Option Int) :=
  cities.foldl
    (fun maps city =>
      let mask := 1 <<< city.toNat
      (mapSet maps.1 (mask, city) (.fin (cellAt m startIndex city).duration),
       mapSet maps.2 (mask, city) startIndex))
    (fun _ => none, fun _ => none)

/-- Inner scan of the transition: try every `prev` in the subset other than
`last`, reading `dp[prevMask][prev] || Infinity`, and keep the strictly
cheapest predecessor (`bestPrev` starts at `-1`, `minCost` at `Infinity`). -/
def hkBestPrev (dp : Nat × Int → Option JsNum) (m : DistanceMatrix) (prevMask : Nat)
    (last : Int) : List Int → JsNum → Int → JsNum × Int
  | [], minCost, bestPrev => (minCost, bestPrev)
  | prev :: rest, minCost, bestPrev =>
    if prev = last then hkBestPrev dp m prevMask last rest minCost bestPrev
    else
      let cost := (jsOrInfinity (dp (prevMask, prev))).add (.fin (cellAt m prev last).duration)
      if JsNum.lt cost minCost then hkBestPrev dp m prevMask last rest cost prev
      else hkBestPrev dp m prevMask last rest minCost bestPrev

/-- Transition for one subset: for every `last` in the subset, write
`dp[mask][last]` and `parent[mask][last]` from the best predecessor scan. -/
def hkSubsetStep (m : DistanceMatrix) (subset : List Int)
    (maps : (Nat × Int → Option JsNum) × (Nat × Int → Option Int)) :
    (Nat × Int → Option JsNum) × (Nat × Int → Option Int) :=
  let mask := getMask subset
  subset.foldl
    (fun maps last =>
      let prevMask := mask ^^^ (1 <<< last.toNat)
      let best := hkBestPrev maps.1 m prevMask last subset .inf (-1)
      (mapSet maps.1 (mask, last) best.1, mapSet maps.2 (mask, last) best.2))
    maps

/-- The `for (size = 2; size <= cities.length; ...)` build-up over subsets
of increasing size. -/
def hkFill (m : DistanceMatrix) (cities : List Int)
    (maps : (Nat × Int → Option JsNum) × (Nat × Int → Option Int)) :
    (Nat × Int → Option JsNum) × (Nat × Int → Option Int) :=
  (List.range (cities.length - 1)).foldl
    (fun maps t => ((generateSubsets cities (t + 2)).foldl
      (fun maps subset => hkSubsetStep m subset maps) maps))
    maps

/-- Final scan: choose the ending city minimizing
`(dp[fullMask][city] || Infinity) + edge(city, tgt)`, with `bestLast`
starting at `-1` and `minCost` at `Infinity`. -/
def hkBestLast (dp : Nat × Int → Option JsNum) (m : DistanceMatrix) (fullMask : Nat)
    (tgt : Int) : List Int → JsNum → Int → Int
  | [], _, bestLast => bestLast
  | city :: rest, minCost, bestLast =>
    let totalCost := (jsOrInfinity (dp (fullMask, city))).add (.fin (cellAt m city tgt).duration)
    if JsNum.lt totalCost minCost then hkBestLast dp m fullMask tgt rest totalCost city
    else hkBestLast dp m fullMask tgt rest minCost bestLast

/-- Backward walk of `reconstructPath`: while `current ≠ start` prepend
`current`, follow the parent pointer (a missing pointer breaks the loop),
clearing `current`'s bit from the mask.  `fuel` bounds the walk; every
execution reached below finishes well within it. -/
def reconstructGo (parent : Nat × Int → Option Int) (start : Int) :
    Nat → Nat → Int → List Int → List Int
  | 0, _, _, path => path
  | fuel + 1, currentMask, current, path =>
    if current = start then path
    else
      match parent (currentMask, current) with
      | none => current :: path
      | some prev =>
        reconstructGo parent start fuel (currentMask ^^^ (1 <<< current.toNat)) prev
          (current :: path)

/-- `reconstructPath(parent, mask, last, start, _cities)`: the backward walk
followed by the final `path.unshift(start)`. -/
def reconstructPath (parent : Nat × Int → Option Int) (mask : Nat) (last start : Int)
    (fuel : Nat) : List Int :=
  start :: reconstructGo parent start fuel mask last []

/-- Body of `heldKarpDP` once the closing stop `tgt` is fixed. -/
def heldKarpBody (m : DistanceMatrix) (startIndex tgt : Int) : OptimizationResult :=
  let cities := ((List.range m.length).map Int.ofNat).filter (fun i => i != startIndex)
  let maps := hkFill m cities (hkBase m startIndex cities)
  let fullMask := getMask cities
  let bestLast := hkBestLast maps.1 m fullMask tgt cities .inf (-1)
  calculateRouteMetrics
    (reconstructPath maps.2 fullMask bestLast startIndex (cities.length + 1) ++ [tgt]) m

/-- `heldKarpDP(matrix, startIndex, endIndex)`: bitmask dynamic programming
over (visited subset, last city); like the exhaustive solver it does NOT
exclude a distinct `endIndex` from the city set before appending it. -/
def heldKarpDP (m : DistanceMatrix) (startIndex : Int) (endIndex : Option Int) :
    OptimizationResult :=
  heldKarpBody m startIndex (closingTarget endIndex startIndex)

/-- Scan of the `for (const city of unvisited)` loop: keep the first city at
strictly minimal directed duration from `current` (`nearest` starts at `-1`,
`minDistance` at `Infinity`). -/
def nearestFrom (m : DistanceMatrix) (current : Int) :
    List Int → Int → JsNum → Int
  | [], best, _ => best
  | c :: cs, best, bestD =>
    let d := (cellAt m current c).duration
    if JsNum.lt (.fin d) bestD then nearestFrom m current cs c (.fin d)
    else nearestFrom m current cs best bestD

/-- The `while (unvisited.size > 0)` loop of `nearestNeighborGreedy`: pick
the nearest unvisited city, append it and delete it from the set.  The set
iterates in insertion order, modelled by a list; `fuel` is the initial size,
which is exactly the number of iterations (each pass deletes the chosen
city, which is a member of the list). -/
def greedyLoop (m : DistanceMatrix) : Nat → List Int → Int → List Int → List Int
  | 0, _, _, acc => acc
  | fuel + 1, unvisited, current, acc =>
    match unvisited with
    | [] => acc
    | _ :: _ =>
      let nearest := nearestFrom m current unvisited (-1) .inf
      greedyLoop m fuel (unvisited.erase nearest) nearest (acc ++ [nearest])

/-- The unvisited set after the initial deletions: all stops, minus the
start, minus the closing stop when the end is a distinct fixed stop
(`de` = `isDistinctEnd`, `tgt` = `closingTarget`). -/
def greedyUnvisited (m : DistanceMatrix) (startIndex : Int) (de : Bool) (tgt : Int) :
    List Int :=
  if de then (((List.range m.length).map Int.ofNat).erase startIndex).erase tgt
  else ((List.range m.length).map Int.ofNat).erase startIndex

/-- Body of `nearestNeighborGreedy` once `de` and `tgt` are fixed: run the
greedy loop from the start and append the closing stop. -/
def greedyBody (m : DistanceMatrix) (startIndex : Int) (de : Bool) (tgt : Int) :
    List Int :=
  greedyLoop m (greedyUnvisited m startIndex de tgt).length
    (greedyUnvisited m startIndex de tgt) startIndex [startIndex] ++ [tgt]

/-- `nearestNeighborGreedy(matrix, startIndex, endIndex)`: greedy
construction; unlike the exact solvers it DOES reserve a distinct fixed end
for the last position. -/
def nearestNeighborGreedy (m : DistanceMatrix) (startIndex : Int)
    (endIndex : Option Int) : List Int :=
  greedyBody m startIndex (isDistinctEnd endIndex startIndex)
    (closingTarget endIndex startIndex)

/-- `twoOptSwap(route, i, j)`: reverse the segment `route[i..j]`. -/
def twoOptSwap (route : List Int) (i j : Nat) : List Int :=
  route.take i ++ ((route.drop i).take (j + 1 - i)).reverse ++ route.drop (j + 1)

/-- Index pairs scanned by one pass of `twoOptImprove`:
`i` from `1` while `i < len - 2`, `j` from `i + 1` while `j < len - 1`
(the route length is invariant along a pass, so the dynamically read
`bestRoute.length` equals the initial length). -/
def twoOptPairs (len : Nat) : List (Nat × Nat) :=
  (List.range (len - 3)).flatMap (fun a =>
    (List.range (len - 2 - (a + 1))).map (fun b => (a + 1, a + 1 + 1 + b)))

/-- One pass of the 2-opt scan: try every pair in order and replace the
current best whenever the reversed route is strictly shorter, recording in
the flag whether any replacement happened. -/
def twoOptPassAux (m : DistanceMatrix) :
    List (Nat × Nat) → List Int → Bool → List Int × Bool
  | [], best, improved => (best, improved)
  | (i, j) :: rest, best, improved =>
    if calculateTotalDistance (twoOptSwap best i j) m < calculateTotalDistance best m then
      twoOptPassAux m rest (twoOptSwap best i j) true
    else
      twoOptPassAux m rest best improved

/-- One full pass of the `while (improved)` body, starting (as the source
does) with `improved = false`. -/
def twoOptPass (m : DistanceMatrix) (route : List Int) : List Int × Bool :=
  twoOptPassAux m (twoOptPairs route.length) route false

/-- Number of permutations of `route` that are strictly shorter than it:
an upper bound on the number of improving passes still possible, since every
improving pass strictly shrinks the total duration inside the (finite)
permutation class of the route. -/
def twoOptMeasure (m : DistanceMatrix) (route : List Int) : Nat :=
  route.permutations.countP
    (fun q => decide (calculateTotalDistance q m < calculateTotalDistance route m))

/-- The `while (improved)` loop, unrolled on a fuel bounding the number of
improving passes.  `twoOptImprove` supplies fuel `twoOptMeasure + 1`, which
is proven sufficient below (the returned route admits no further improving
pass). -/
def twoOptGo (m : DistanceMatrix) : Nat → List Int → List Int
  | 0, r => r
  | fuel + 1, r =>
    if (twoOptPass m r).2 then twoOptGo m fuel (twoOptPass m r).1 else r

/-- `twoOptImprove(route, matrix)`: repeat full 2-opt passes until one makes
no replacement, then return the current best route. -/
def twoOptImprove (route : List Int) (m : DistanceMatrix) : List Int :=
  twoOptGo m (twoOptMeasure m route + 1) route

/-- `nearestNeighbor2Opt(matrix, startIndex, endIndex)`: greedy construction,
2-opt improvement, metric fold. -/
def nearestNeighbor2Opt (m : DistanceMatrix) (startIndex : Int)
    (endIndex : Option Int) : OptimizationResult :=
  calculateRouteMetrics (twoOptImprove (nearestNeighborGreedy m startIndex endIndex) m) m

/-- `optimizeRoute(matrix, startIndex, endIndex)`: dispatch purely on the
stop count `n = matrix.length`; there is no input validation of any kind. -/
def optimizeRoute (m : DistanceMatrix) (startIndex : Int) (endIndex : Option Int) :
    OptimizationResult :=
  if m.length ≤ 7 then bruteForceOptimal m startIndex endIndex
  else if m.length ≤ 10 then heldKarpDP m startIndex endIndex
  else nearestNeighbor2Opt m startIndex endIndex

/-- The all-zero cell (used to build concrete instances below). -/
def zeroCell : Cell := ⟨0, 0, none⟩

/-- Square matrix of zero cells, used to exercise the dispatcher. -/
def zeroMatrix (n : Nat) : DistanceMatrix :=
  List.replicate n (List.replicate n zeroCell)

/-- Two stops, 60 s apart in both directions. -/
def cmTwoStops : DistanceMatrix :=
  [[⟨0, 0, none⟩, ⟨60, 0, none⟩],
   [⟨60, 0, none⟩, ⟨0, 0, none⟩]]

/-- The spec scenario `0→1 = 5, 1→2 = 5, 0→2 = 20`, symmetric, zero diagonal. -/
def cmScenario : DistanceMatrix :=
  [[⟨0, 0, none⟩, ⟨5, 0, none⟩, ⟨20, 0, none⟩],
   [⟨5, 0, none⟩, ⟨0, 0, none⟩, ⟨5, 0, none⟩],
   [⟨20, 0, none⟩, ⟨5, 0, none⟩, ⟨0, 0, none⟩]]

/-- A 3×4 (non-square) matrix: three rows of four cells, 60 s / 100 m per
off-diagonal edge among the first three columns. -/
def cmNonSquare : DistanceMatrix :=
  [[⟨0, 0, none⟩, ⟨60, 100, none⟩, ⟨60, 100, none⟩, ⟨999, 999, none⟩],
   [⟨60, 100, none⟩, ⟨0, 0, none⟩, ⟨60, 100, none⟩, ⟨999, 999, none⟩],
   [⟨60, 100, none⟩, ⟨60, 100, none⟩, ⟨0, 0, none⟩, ⟨999, 999, none⟩]]

/-- Three stops with a zero-duration edge `0→1`: the closed tour
`0→1→2→0` costs 120 s while the tour `0→2→1→0` costs 900 s. -/
def cmZeroEdge : DistanceMatrix :=
  [[⟨0, 0, none⟩, ⟨0, 0, none⟩, ⟨300, 0, none⟩],
   [⟨300, 0, none⟩, ⟨0, 0, none⟩, ⟨60, 0, none⟩],
   [⟨60, 0, none⟩, ⟨300, 0, none⟩, ⟨0, 0, none⟩]]

/-- Reversing the segment `route[i..j]` permutes the route whenever
`i ≤ j + 1`. -/
theorem twoOptSwap_perm (r : List Int) (i j : Nat) (h : i ≤ j + 1) :
    List.Perm (twoOptSwap r i j) r := by
  have hd : (r.drop i).drop (j + 1 - i) = r.drop (j + 1) := by
    rw [List.drop_drop]
    congr 1
    omega
  have hsplit :
      r.take i ++ ((r.drop i).take (j + 1 - i) ++ (r.drop i).drop (j + 1 - i)) = r := by
    rw [List.take_append_drop, List.take_append_drop]
  have h1 : twoOptSwap r i j
      = r.take i ++ (((r.drop i).take (j + 1 - i)).reverse ++ (r.drop i).drop (j + 1 - i)) := by
    rw [twoOptSwap, hd, List.append_assoc]
  have h2 := List.Perm.append_left (r.take i)
    (List.Perm.append_right ((r.drop i).drop (j + 1 - i))
      (List.reverse_perm ((r.drop i).take (j + 1 - i))))
  rw [hsplit] at h2
  rw [h1]
  exact h2

/-- Every pair scanned by a 2-opt pass satisfies `i + 1 ≤ j`. -/
theorem mem_twoOptPairs {len : Nat} {q : Nat × Nat} (hq : q ∈ twoOptPairs len) :
    q.1 + 1 ≤ q.2 := by
  obtain ⟨i, j⟩ := q
  simp only [twoOptPairs, List.mem_flatMap, List.mem_map, List.mem_range] at hq
  obtain ⟨a, _, b, _, heq⟩ := hq
  injection heq with e1 e2
  omega

/-- Invariants of the 2-opt scan: the running best stays a permutation of
the input, its duration never grows, the flag can only switch to `true`
together with a strict decrease, and a raised flag stays raised. -/
theorem twoOptPassAux_spec (m : DistanceMatrix) :
    ∀ (pairs : List (Nat × Nat)) (best : List Int) (improved : Bool),
      (∀ q ∈ pairs, q.1 + 1 ≤ q.2) →
      List.Perm (twoOptPassAux m pairs best improved).1 best ∧
        calculateTotalDistance (twoOptPassAux m pairs best improved).1 m ≤
          calculateTotalDistance best m ∧
        ((twoOptPassAux m pairs best improved).2 = true →
          improved = true ∨
            calculateTotalDistance (twoOptPassAux m pairs best improved).1 m <
              calculateTotalDistance best m) ∧
        (improved = true → (twoOptPassAux m pairs best improved).2 = true) := by
  intro pairs
  induction pairs with
  | nil =>
    intro best improved _
    exact ⟨List.Perm.refl _, le_refl _, fun h2 => Or.inl h2, fun h2 => h2⟩
  | cons hd tl ih =>
    intro best improved h
    obtain ⟨i, j⟩ := hd
    have hij : i + 1 ≤ j := h (i, j) (List.mem_cons_self _ _)
    have htl : ∀ q ∈ tl, q.1 + 1 ≤ q.2 := fun q hq => h q (List.mem_cons_of_mem _ hq)
    by_cases hacc :
        calculateTotalDistance (twoOptSwap best i j) m < calculateTotalDistance best m
    · have hperm := twoOptSwap_perm best i j (by omega)
      obtain ⟨p1, p2, _, p4⟩ := ih (twoOptSwap best i j) true htl
      have hred : twoOptPassAux m ((i, j) :: tl) best improved
          = twoOptPassAux m tl (twoOptSwap best i j) true := by
        simp only [twoOptPassAux, if_pos hacc]
      rw [hred]
      exact ⟨p1.trans hperm, le_of_lt (lt_of_le_of_lt p2 hacc),
        fun _ => Or.inr (lt_of_le_of_lt p2 hacc), fun _ => p4 rfl⟩
    · have hred : twoOptPassAux m ((i, j) :: tl) best improved
          = twoOptPassAux m tl best improved := by
        simp only [twoOptPassAux, if_neg hacc]
      rw [hred]
      exact ih best improved htl

/-- One full pass: permutation, no growth, and the flag implies a strict
decrease. -/
theorem twoOptPass_spec (m : DistanceMatrix) (r : List Int) :
    List.Perm (twoOptPass m r).1 r ∧
      calculateTotalDistance (twoOptPass m r).1 m ≤ calculateTotalDistance r m ∧
      ((twoOptPass m r).2 = true →
        calculateTotalDistance (twoOptPass m r).1 m < calculateTotalDistance r m) := by
  obtain ⟨p1, p2, p3, _⟩ :=
    twoOptPassAux_spec m (twoOptPairs r.length) r false (fun q hq => mem_twoOptPairs hq)
  exact ⟨p1, p2, fun h2 => (p3 h2).resolve_left (by simp)⟩

/-- Counting lemma: if `P` implies `Q` pointwise and the list holds a
witness satisfying `Q` but not `P`, then strictly fewer members satisfy
`P` than `Q`. -/
theorem countP_lt_of_strict {α : Type} (P Q : α → Bool) :
    ∀ (l : List α) (x : α), x ∈ l → (∀ a, P a = true → Q a = true) →
      Q x = true → P x = false → l.countP P < l.countP Q := by
  intro l
  induction l with
  | nil => intro x hx; cases hx
  | cons y ys ih =>
    intro x hx hPQ hQx hPx
    rw [List.countP_cons, List.countP_cons]
    rcases List.mem_cons.mp hx with rfl | hmem
    · have hle : ys.countP P ≤ ys.countP Q :=
        List.countP_mono_left (fun a _ ha => hPQ a ha)
      simp [hPx, hQx]
      omega
    · have hlt := ih x hmem hPQ hQx hPx
      have hyle : (if P y then 1 else 0) ≤ (if Q y then 1 else 0) := by
        by_cases hy : P y = true
        · simp [hy, hPQ y hy]
        · simp [hy]
      omega

/-- A strictly shorter permutation of a route has a strictly smaller
2-opt measure. -/
theorem twoOptMeasure_lt (m : DistanceMatrix) {r r' : List Int}
    (hperm : List.Perm r' r)
    (hlt : calculateTotalDistance r' m < calculateTotalDistance r m) :
    twoOptMeasure m r' < twoOptMeasure m r := by
  have hpp : List.Perm r'.permutations r.permutations := hperm.permutations
  rw [twoOptMeasure, twoOptMeasure, hpp.countP_eq]
  exact countP_lt_of_strict _ _ r.permutations r'
    (List.mem_permutations.mpr hperm)
    (fun a ha => decide_eq_true (lt_trans (of_decide_eq_true ha) hlt))
    (decide_eq_true hlt)
    (decide_eq_false (lt_irrefl _))

/-- The unrolled 2-opt loop never increases the total duration. -/
theorem twoOptGo_dist_le (m : DistanceMatrix) :
    ∀ (fuel : Nat) (r : List Int),
      calculateTotalDistance (twoOptGo m fuel r) m ≤ calculateTotalDistance r m := by
  intro fuel
  induction fuel with
  | zero => intro r; exact le_refl _
  | succ f ih =>
    intro r
    rw [twoOptGo]
    by_cases h2 : (twoOptPass m r).2 = true
    · rw [if_pos h2]
      exact le_trans (ih _) (twoOptPass_spec m r).2.1
    · rw [if_neg h2]

/-- The unrolled 2-opt loop permutes its input route. -/
theorem twoOptGo_perm (m : DistanceMatrix) :
    ∀ (fuel : Nat) (r : List Int), List.Perm (twoOptGo m fuel r) r := by
  intro fuel
  induction fuel with
  | zero => intro r; exact List.Perm.refl _
  | succ f ih =>
    intro r
    rw [twoOptGo]
    by_cases h2 : (twoOptPass m r).2 = true
    · rw [if_pos h2]
      exact (ih _).trans (twoOptPass_spec m r).1
    · rw [if_neg h2]

/-- With fuel above the 2-opt measure, the loop reaches a route on which a
full pass makes no replacement — exactly the exit condition of the source's
`while (improved)` loop. -/
theorem twoOptGo_fix (m : DistanceMatrix) :
    ∀ (fuel : Nat) (r : List Int), twoOptMeasure m r < fuel →
      (twoOptPass m (twoOptGo m fuel r)).2 = false := by
  intro fuel
  induction fuel with
  | zero => intro r h; exact absurd h (Nat.not_lt_zero _)
  | succ f ih =>
    intro r h
    rw [twoOptGo]
    by_cases h2 : (twoOptPass m r).2 = true
    · rw [if_pos h2]
      apply ih
      have hstep := twoOptMeasure_lt m (twoOptPass_spec m r).1 ((twoOptPass_spec m r).2.2 h2)
      omega
    · rw [if_neg h2]
      exact Bool.not_eq_true _ ▸ h2

/-- Closing stop of the implicit closed tour (`endIndex === null`). -/
theorem closingTarget_none (s : Int) : closingTarget none s = s := rfl

/-- Closing stop of the explicit closed tour (`endIndex === startIndex`). -/
theorem closingTarget_some_self (s : Int) : closingTarget (some s) s = s := by
  simp [closingTarget]

/-- The null end is not a distinct fixed end. -/
theorem isDistinctEnd_none (s : Int) : isDistinctEnd none s = false := rfl

/-- An end equal to the start is not a distinct fixed end. -/
theorem isDistinctEnd_some_self (s : Int) : isDistinctEnd (some s) s = false := by
  simp [isDistinctEnd]

/-- The exhaustive solver treats `null` and `endIndex = startIndex` alike. -/
theorem bruteForceOptimal_end_self (m : DistanceMatrix) (s : Int) :
    bruteForceOptimal m s none = bruteForceOptimal m s (some s) := by
  simp only [bruteForceOptimal, closingTarget_none, closingTarget_some_self]

/-- The DP solver treats `null` and `endIndex = startIndex` alike. -/
theorem heldKarpDP_end_self (m : DistanceMatrix) (s : Int) :
    heldKarpDP m s none = heldKarpDP m s (some s) := by
  simp only [heldKarpDP, closingTarget_none, closingTarget_some_self]

/-- The greedy construction treats `null` and `endIndex = startIndex` alike. -/
theorem nearestNeighborGreedy_end_self (m : DistanceMatrix) (s : Int) :
    nearestNeighborGreedy m s none = nearestNeighborGreedy m s (some s) := by
  simp only [nearestNeighborGreedy, closingTarget_none, closingTarget_some_self,
    isDistinctEnd_none, isDistinctEnd_some_self]

/-- The heuristic solver treats `null` and `endIndex = startIndex` alike. -/
theorem nearestNeighbor2Opt_end_self (m : DistanceMatrix) (s : Int) :
    nearestNeighbor2Opt m s none = nearestNeighbor2Opt m s (some s) := by
  simp only [nearestNeighbor2Opt, nearestNeighborGreedy_end_self]

/-- C5: for every matrix and start index, calling the dispatcher with
`endIndex = null` and with `endIndex = startIndex` produces identical
results (in particular identical `orderedStops`): every solver reaches the
same closed tour through the same closing edge back to the start. -/
theorem optimizeRoute_end_null_eq_start (m : DistanceMatrix) (s : Int) :
    optimizeRoute m s none = optimizeRoute m s (some s) := by
  simp only [optimizeRoute, bruteForceOptimal_end_self, heldKarpDP_end_self,
    nearestNeighbor2Opt_end_self]

/-- C6: the dispatcher selects its strategy purely from the stop count
`n = matrix.length`: exhaustive search for `n ≤ 7`, subset DP for
`8 ≤ n ≤ 10`, nearest-neighbor + 2-opt for `n ≥ 11`, returning exactly the
selected solver's result. -/
theorem optimizeRoute_dispatch :
    (∀ (m : DistanceMatrix) (s : Int) (e : Option Int), m.length ≤ 7 →
        optimizeRoute m s e = bruteForceOptimal m s e) ∧
      (∀ (m : DistanceMatrix) (s : Int) (e : Option Int),
        8 ≤ m.length → m.length ≤ 10 → optimizeRoute m s e = heldKarpDP m s e) ∧
      (∀ (m : DistanceMatrix) (s : Int) (e : Option Int), 11 ≤ m.length →
        optimizeRoute m s e = nearestNeighbor2Opt m s e) := by
  refine ⟨fun m s e h => ?_, fun m s e h1 h2 => ?_, fun m s e h => ?_⟩
  · rw [optimizeRoute, if_pos h]
  · rw [optimizeRoute, if_neg (by omega), if_pos h2]
  · rw [optimizeRoute, if_neg (by omega), if_neg (by omega)]

/-- Witness for C6: the dispatch equations at concrete sizes 7, 10 and 11. -/
theorem optimizeRoute_dispatch_witness :
    optimizeRoute (zeroMatrix 7) 0 none = bruteForceOptimal (zeroMatrix 7) 0 none ∧
      optimizeRoute (zeroMatrix 10) 0 none = heldKarpDP (zeroMatrix 10) 0 none ∧
      optimizeRoute (zeroMatrix 11) 0 none = nearestNeighbor2Opt (zeroMatrix 11) 0 none :=
  ⟨optimizeRoute_dispatch.1 (zeroMatrix 7) 0 none (by decide),
   optimizeRoute_dispatch.2.1 (zeroMatrix 10) 0 none (by decide) (by decide),
   optimizeRoute_dispatch.2.2 (zeroMatrix 11) 0 none (by decide)⟩

/-- C7: the route returned by the 2-opt improvement phase has total duration
at most that of the nearest-neighbor construction route it started from,
for every matrix, start and end constraint. -/
theorem twoOpt_le_construction (m : DistanceMatrix) (s : Int) (e : Option Int) :
    calculateTotalDistance (twoOptImprove (nearestNeighborGreedy m s e) m) m ≤
      calculateTotalDistance (nearestNeighborGreedy m s e) m := by
  rw [twoOptImprove]
  exact twoOptGo_dist_le m _ _

/-- C9: the 2-opt improvement loop terminates on every input: the result is
one of the finitely many permutations of the input route (every accepted
swap is a segment reversal, and each strictly decreases the total duration),
and it satisfies the loop's exit condition — one further full pass over all
pairs `(i, j)` finds no improving swap. -/
theorem twoOptImprove_terminating (m : DistanceMatrix) (r : List Int) :
    List.Perm (twoOptImprove r m) r ∧ (twoOptPass m (twoOptImprove r m)).2 = false := by
  constructor
  · rw [twoOptImprove]
    exact twoOptGo_perm m _ _
  · rw [twoOptImprove]
    exact twoOptGo_fix m _ _ (Nat.lt_succ_self _)

/-- The metric fold accumulates exactly the four per-edge sums. -/
theorem foldl_metricsStep (m : DistanceMatrix) :
    ∀ (l : List (Int × Int)) (a : Int × Int × Int × Int),
      l.foldl (metricsStep m) a =
        (a.1 + (l.map (fun p => (cellAt m p.1 p.2).duration)).sum,
         a.2.1 + (l.map (fun p => (cellAt m p.1 p.2).distance)).sum,
         a.2.2.1 + (l.map (fun p => (costOrZero (cellAt m p.1 p.2).cost).1)).sum,
         a.2.2.2 + (l.map (fun p => (costOrZero (cellAt m p.1 p.2).cost).2)).sum) := by
  intro l
  induction l with
  | nil => intro a; simp
  | cons hd tl ih =>
    intro a
    rw [List.foldl_cons, ih]
    simp only [List.map_cons, List.sum_cons, metricsStep, Prod.mk.injEq]
    refine ⟨by ring, by ring, by ring, by ring⟩

/-- C8: for every route and matrix, the metrics reducer returns the sums of
the consecutive-edge cells' `duration` (converted from seconds to minutes by
rounding to the nearest integer), `distance`, and `cost.min`/`cost.max`,
where a cell with absent cost contributes zero to both cost bounds instead
of causing a failure. -/
theorem calculateRouteMetrics_spec (route : List Int) (m : DistanceMatrix) :
    calculateRouteMetrics route m =
      { orderedStops := route.map (fun i => toString i)
        totalDuration :=
          roundToMinutes (((routePairs route).map (fun p => (cellAt m p.1 p.2).duration)).sum)
        totalDistance := ((routePairs route).map (fun p => (cellAt m p.1 p.2).distance)).sum
        totalCost :=
          (((routePairs route).map (fun p => (costOrZero (cellAt m p.1 p.2).cost).1)).sum,
           ((routePairs route).map (fun p => (costOrZero (cellAt m p.1 p.2).cost).2)).sum) } := by
  rw [calculateRouteMetrics, foldl_metricsStep]
  simp

/-- C10: a 1×1 matrix raises no error with `endIndex = null` or
`endIndex = 0`: the dispatcher selects exhaustive search, which returns
`orderedStops = ["0", "0"]` (the start followed by the closing return to the
start) with the metrics folded from the single diagonal cell. -/
theorem optimizeRoute_single_stop (c : Cell) :
    optimizeRoute [[c]] 0 none =
        { orderedStops := ["0", "0"], totalDuration := roundToMinutes c.duration,
          totalDistance := c.distance, totalCost := costOrZero c.cost } ∧
      optimizeRoute [[c]] 0 (some 0) =
        { orderedStops := ["0", "0"], totalDuration := roundToMinutes c.duration,
          totalDistance := c.distance, totalCost := costOrZero c.cost } := by
  constructor <;>
    · simp [optimizeRoute, bruteForceOptimal, closingTarget, permute, permuteAux,
        bruteChoose, calculateTotalDistance, routePairs, cellAt, listGetI, rowGetI,
        lastStop, calculateRouteMetrics, metricsStep, JsNum.lt,
        List.range_succ, OptimizationResult.mk.injEq]
      decide

/-- C1: the per-route invariant fails for a distinct fixed end.  On the
2-stop matrix with start 0 and `endIndex = 1`, the selected solver
(exhaustive search) permutes ALL non-start stops — including stop 1 — and
then appends `endIndex` again, returning the route `[0, 1, 1]`: length 3
instead of `n = 2`, with stop 1 repeated, contradicting the claimed
"length n, no repeated stop" shape of open tours. -/
theorem optimizeRoute_distinct_end_duplicates :
    (optimizeRoute cmTwoStops 0 (some 1)).orderedStops = ["0", "1", "1"] := by
  decide

/-- C2: on the spec scenario (`n = 3`, start 0, end 2, costs
`0→1 = 5, 1→2 = 5, 0→2 = 20`), the dispatcher's exhaustive search does take
the two 5-cost edges, but returns `orderedStops = ["0", "1", "2", "2"]` —
the claimed `["0", "1", "2"]` with the final stop duplicated, because stop 2
is both permuted and appended. -/
theorem optimizeRoute_scenario_route :
    (optimizeRoute cmScenario 0 (some 2)).orderedStops = ["0", "1", "2", "2"] := by
  decide

/-- C3: no invalid-input error exists.  On a 3×4 non-square matrix the
dispatcher runs the exhaustive solver and returns a normal result computed
from the first three columns, instead of failing before any solver runs. -/
theorem optimizeRoute_nonsquare_returns :
    optimizeRoute cmNonSquare 0 none =
      { orderedStops := ["0", "1", "2", "0"], totalDuration := 3,
        totalDistance := 300, totalCost := (0, 0) } := by
  decide

/-- C4: the two exact solvers disagree on a valid 3-stop matrix with
non-negative durations.  With `0→1 = 0 s`, `1→2 = 60 s`, `2→0 = 60 s` and
300 s on the reverse edges, exhaustive search finds the 120 s tour
`0→1→2→0` (2 min), while `dp.get(key) || Infinity` in the DP solver turns
the stored cost 0 of the base case `dp[{1}][1]` into `Infinity` (0 is falsy
in JavaScript), discarding that tour and returning the 900 s tour
`0→2→1→0` (15 min). -/
theorem exactSolvers_zero_edge_disagree :
    (bruteForceOptimal cmZeroEdge 0 none).totalDuration = 2 ∧
      (heldKarpDP cmZeroEdge 0 none).totalDuration = 15 := by
  decide
